import Mathlib

/-!
Verification of the djsonrest versioned-route registry and dispatch pipeline.

The definitions below are a shallow embedding of `src/rest.py` and
`src/auth.py`:
* `RESTVersion`, `RESTVersionMatch.*` embed the version value type and its
  three match policies (`RESTVersionMatch.FOLLOWING_MINOR` / `EQUAL` /
  `FOLLOWING_MAJOR_MINOR` in the source; the stored `match` callable is
  modelled by the enum `RESTVersionMatchPolicy`).
* Python machine integers are unbounded, so `Int` is used throughout.
* Python dicts keyed by `RESTVersion` are modelled as association lists;
  CPython treats two keys as the same slot iff their hashes agree and
  `__eq__` holds.  `RESTVersion.__hash__` hashes `(number, match)` while
  `__eq__` compares only `number`, so (ignoring hash collisions) two
  `RESTVersion` keys coincide iff both the number and the match callable
  agree — i.e. structural equality of the model type.
-/

inductive RESTVersionMatchPolicy where
  | FOLLOWING_MINOR
  | EQUAL
  | FOLLOWING_MAJOR_MINOR
deriving DecidableEq, Repr

/-- The `RESTVersion` value type of `src/rest.py`: a `(major, minor)` number
together with the match policy callable (modelled as an enum).  The source
stores `self.number = (self.major, self.minor)` in both constructor branches,
so `number` is derived here. -/
structure RESTVersion where
  major : Int
  minor : Int
  matchPolicy : RESTVersionMatchPolicy
deriving DecidableEq, Repr

def RESTVersion.number (v : RESTVersion) : Int × Int := (v.major, v.minor)

namespace RESTVersionMatch

/-- `RESTVersionMatch.FOLLOWING_MINOR(version, other)` from `src/rest.py`. -/
def FOLLOWING_MINOR (version : RESTVersion) (other : Int × Int) : Bool :=
  if other.1 ≠ version.major then false
  else if other.2 < version.minor then false
  else true

/-- `RESTVersionMatch.EQUAL(version, other)` from `src/rest.py`. -/
def EQUAL (version : RESTVersion) (other : Int × Int) : Bool :=
  if version.number ≠ other then false
  else true

/-- `RESTVersionMatch.FOLLOWING_MAJOR_MINOR(version, other)` from
`src/rest.py`. -/
def FOLLOWING_MAJOR_MINOR (version : RESTVersion) (other : Int × Int) : Bool :=
  if other.1 < version.major then false
  else if other.1 = version.major ∧ other.2 < version.minor then false
  else true

end RESTVersionMatch

/-- `RESTVersion.matches(self, other)` dispatches to the stored match
callable. -/
def RESTVersion.matches (v : RESTVersion) (other : Int × Int) : Bool :=
  match v.matchPolicy with
  | .FOLLOWING_MINOR => RESTVersionMatch.FOLLOWING_MINOR v other
  | .EQUAL => RESTVersionMatch.EQUAL v other
  | .FOLLOWING_MAJOR_MINOR => RESTVersionMatch.FOLLOWING_MAJOR_MINOR v other

/-- Python tuple `<` on `(major, minor)` pairs: lexicographic strict order.
`RESTVersion.__lt__`/`__gt__` compare `self.number` with it. -/
def tupLt (a b : Int × Int) : Prop :=
  a.1 < b.1 ∨ (a.1 = b.1 ∧ a.2 < b.2)

instance (a b : Int × Int) : Decidable (tupLt a b) := by
  unfold tupLt; infer_instance

/-- Python dict lookup `d[k]`, modelled as an association list scan.  For
`RESTVersion` keys, CPython key identity combines `__hash__` (over
`(number, match)`) and `__eq__` (over `number`), which together amount to
structural equality of the model type. -/
def dictLookup {κ β : Type} [DecidableEq κ] : List (κ × β) → κ → Option β
  | [], _ => none
  | p :: rest, k => if p.1 = k then some p.2 else dictLookup rest k

/-- Whether a Python dict already holds an entry for key `k`. -/
def hasKey {κ β : Type} [DecidableEq κ] (d : List (κ × β)) (k : κ) : Bool :=
  d.any (fun p => decide (p.1 = k))

/-- Python dict assignment `d[k] = v`: replace the value of an existing
entry for `k` in place, otherwise append a fresh entry. -/
def dictInsert {κ β : Type} [DecidableEq κ] (d : List (κ × β)) (k : κ) (v : β) :
    List (κ × β) :=
  if hasKey d k then d.map (fun p => if p.1 = k then (k, v) else p)
  else d ++ [(k, v)]

/-- Fold computing the first element of maximal `number` in `w :: vs`:
the accumulator is replaced only on a strictly greater candidate. -/
def firstMaxFold (w : RESTVersion) (vs : List RESTVersion) : RESTVersion :=
  vs.foldl (fun acc u => if tupLt acc.number u.number then u else acc) w

/-- Head of `sorted(candidates, reverse=True)` in
`RESTRoute.find_matching_version_route`: Python's sort is stable and
`reverse=True` keeps the original order of elements with equal keys, so the
head of the descending sort is the first element attaining the maximal
`number`. -/
def firstMaxVersion : List RESTVersion → Option RESTVersion
  | [] => none
  | v :: vs => some (firstMaxFold v vs)

/-- `RESTRoute.find_matching_version_route(self, version)` from
`src/rest.py`: filter the keys of `self.version_routes` by
`vers.matches(version)`, sort descending, return the bucket of the first;
with no candidate the source returns `app_settings.ROUTE_NOT_FOUND_VIEW`,
modelled as `none`. -/
def find_matching_version_route {β : Type} (version_routes : List (RESTVersion × β))
    (version : Int × Int) : Option β :=
  match firstMaxVersion ((version_routes.map Prod.fst).filter
      (fun vers => vers.matches version)) with
  | none => none
  | some w => dictLookup version_routes w

lemma tupGe_trans {a b c : Int × Int} (h1 : ¬ tupLt a b) (h2 : ¬ tupLt b c) :
    ¬ tupLt a c := by
  unfold tupLt at *
  omega

lemma tupLt_irrefl (a : Int × Int) : ¬ tupLt a a := by
  unfold tupLt
  omega

lemma firstMaxFold_mem (w : RESTVersion) (vs : List RESTVersion) :
    firstMaxFold w vs = w ∨ firstMaxFold w vs ∈ vs := by
  induction vs generalizing w with
  | nil => exact Or.inl rfl
  | cons a rest ih =>
    have step : firstMaxFold w (a :: rest)
        = firstMaxFold (if tupLt w.number a.number then a else w) rest := by
      simp [firstMaxFold]
    by_cases hlt : tupLt w.number a.number
    · rw [step, if_pos hlt]
      rcases ih a with h | h
      · exact Or.inr (by rw [h]; exact List.mem_cons_self a rest)
      · exact Or.inr (List.mem_cons_of_mem a h)
    · rw [step, if_neg hlt]
      rcases ih w with h | h
      · exact Or.inl h
      · exact Or.inr (List.mem_cons_of_mem a h)

lemma firstMaxFold_ge (w : RESTVersion) (vs : List RESTVersion) :
    ∀ u, (u = w ∨ u ∈ vs) → ¬ tupLt (firstMaxFold w vs).number u.number := by
  induction vs generalizing w with
  | nil =>
    rintro u (rfl | h)
    · exact tupLt_irrefl _
    · simp at h
  | cons a rest ih =>
    have step : firstMaxFold w (a :: rest)
        = firstMaxFold (if tupLt w.number a.number then a else w) rest := by
      simp [firstMaxFold]
    have hge : ∀ z, ¬ tupLt (firstMaxFold z rest).number z.number :=
      fun z => ih z z (Or.inl rfl)
    rintro u hu
    rcases hu with heq | hmem
    · rw [heq, step]
      by_cases hlt : tupLt w.number a.number
      · rw [if_pos hlt]
        refine tupGe_trans (hge a) ?_
        unfold tupLt at hlt ⊢
        omega
      · rw [if_neg hlt]
        exact hge w
    · rcases List.mem_cons.mp hmem with heq2 | hmem2
      · rw [heq2, step]
        by_cases hlt : tupLt w.number a.number
        · rw [if_pos hlt]
          exact hge a
        · rw [if_neg hlt]
          exact tupGe_trans (hge w) hlt
      · rw [step]
        exact ih _ u (Or.inr hmem2)

lemma dictLookup_of_mem_keys {κ β : Type} [DecidableEq κ] (d : List (κ × β)) (w : κ)
    (h : w ∈ d.map Prod.fst) :
    ∃ p ∈ d, dictLookup d w = some p.2 ∧ p.1 = w := by
  induction d with
  | nil => simp at h
  | cons q rest ih =>
    by_cases hq : q.1 = w
    · exact ⟨q, by simp, by simp [dictLookup, hq], hq⟩
    · simp only [List.map_cons, List.mem_cons] at h
      rcases h with h | h
      · exact absurd h.symm hq
      · obtain ⟨p, hp, hlook, hkey⟩ := ih h
        exact ⟨p, by simp [hp], by simp [dictLookup, hq, hlook], hkey⟩

/-- C1: if at least one registered VersionSpec matches the requested version,
`find_matching_version_route` returns the bucket of a matching VersionSpec
whose `(major, minor)` is greatest (≥ every other matching registered key,
lexicographically); if no registered VersionSpec matches, it returns the
not-found outcome (`none`), never an arbitrary bucket. -/
theorem C1_find_matching_version_route {β : Type}
    (d : List (RESTVersion × β)) (req : Int × Int) :
    ((∃ p ∈ d, p.1.matches req = true) →
      ∃ p ∈ d, find_matching_version_route d req = some p.2 ∧
        p.1.matches req = true ∧
        ∀ q ∈ d, q.1.matches req = true → ¬ tupLt p.1.number q.1.number) ∧
    ((∀ p ∈ d, p.1.matches req = false) →
      find_matching_version_route d req = none) := by
  constructor
  · rintro ⟨p0, hp0, hm0⟩
    set ks := (d.map Prod.fst).filter (fun vers => vers.matches req) with hks
    have hp0k : p0.1 ∈ ks := by
      rw [hks]
      exact List.mem_filter.mpr ⟨List.mem_map_of_mem Prod.fst hp0, hm0⟩
    obtain ⟨v, vs, hcons⟩ : ∃ v vs, ks = v :: vs := by
      cases hkse : ks with
      | nil => rw [hkse] at hp0k; simp at hp0k
      | cons v vs => exact ⟨v, vs, rfl⟩
    have hwk : firstMaxFold v vs ∈ ks := by
      rw [hcons]
      rcases firstMaxFold_mem v vs with h | h
      · simp [h]
      · simp [h]
    have hwmem : firstMaxFold v vs ∈ d.map Prod.fst :=
      (List.mem_filter.mp (hks ▸ hwk)).1
    have hwmatch : (firstMaxFold v vs).matches req = true := by
      have := (List.mem_filter.mp (hks ▸ hwk)).2
      simpa using this
    obtain ⟨p, hp, hlook, hkey⟩ := dictLookup_of_mem_keys d (firstMaxFold v vs) hwmem
    refine ⟨p, hp, ?_, ?_, ?_⟩
    · have : find_matching_version_route d req = dictLookup d (firstMaxFold v vs) := by
        unfold find_matching_version_route
        rw [← hks, hcons]
        rfl
      rw [this, hlook]
    · rw [hkey]; exact hwmatch
    · intro q hq hqm
      have hqk : q.1 ∈ ks := by
        rw [hks]
        exact List.mem_filter.mpr ⟨List.mem_map_of_mem Prod.fst hq, by simpa using hqm⟩
      rw [hkey]
      rw [hcons] at hqk
      rcases List.mem_cons.mp hqk with h | h
      · exact firstMaxFold_ge v vs q.1 (Or.inl h)
      · exact firstMaxFold_ge v vs q.1 (Or.inr h)
  · intro hall
    have hnil : (d.map Prod.fst).filter (fun vers => vers.matches req) = [] := by
      rw [List.filter_eq_nil_iff]
      intro v hv
      obtain ⟨p, hp, hpv⟩ := List.mem_map.mp hv
      simp [← hpv, hall p hp]
    unfold find_matching_version_route
    rw [hnil]
    rfl

/-- A two-bucket route table used to instantiate the resolve claim. -/
def exampleTable : List (RESTVersion × Nat) :=
  [(⟨1, 0, .FOLLOWING_MINOR⟩, 10), (⟨1, 5, .FOLLOWING_MINOR⟩, 15)]

/-- Witness for C1: a concrete table with two matching candidates for
request (1,7). -/
theorem C1_find_matching_version_route_witness :
    ∃ p ∈ exampleTable, find_matching_version_route exampleTable (1, 7) = some p.2 ∧
      p.1.matches (1, 7) = true ∧
      ∀ q ∈ exampleTable, q.1.matches (1, 7) = true →
        ¬ tupLt p.1.number q.1.number :=
  (C1_find_matching_version_route exampleTable (1, 7)).1 (by decide)

/-- C2: FOLLOWING_MINOR matches iff same major and requested minor ≥ declared
minor; FOLLOWING_MAJOR_MINOR matches iff requested major is strictly larger,
or majors agree and requested minor ≥ declared minor; EQUAL (the spec's
EXACT) matches iff the requested pair equals the declared pair.  In
particular FOLLOWING_MINOR(1,5) matches (1,5) and (1,9) and rejects (1,4)
and (2,0), and FOLLOWING_MAJOR_MINOR(0,0) matches exactly the requested
versions ≥ (0,0) lexicographically. -/
theorem C2_match_policies :
    ∀ major minor rmajor rminor : Int,
      (RESTVersion.matches ⟨major, minor, .FOLLOWING_MINOR⟩ (rmajor, rminor) = true
        ↔ rmajor = major ∧ minor ≤ rminor) ∧
      (RESTVersion.matches ⟨major, minor, .FOLLOWING_MAJOR_MINOR⟩ (rmajor, rminor) = true
        ↔ (major < rmajor ∨ (rmajor = major ∧ minor ≤ rminor))) ∧
      (RESTVersion.matches ⟨major, minor, .EQUAL⟩ (rmajor, rminor) = true
        ↔ (rmajor, rminor) = (major, minor)) ∧
      (RESTVersion.matches ⟨1, 5, .FOLLOWING_MINOR⟩ (1, 5) = true) ∧
      (RESTVersion.matches ⟨1, 5, .FOLLOWING_MINOR⟩ (1, 9) = true) ∧
      (RESTVersion.matches ⟨1, 5, .FOLLOWING_MINOR⟩ (1, 4) = false) ∧
      (RESTVersion.matches ⟨1, 5, .FOLLOWING_MINOR⟩ (2, 0) = false) ∧
      (∀ rM rm : Int,
        RESTVersion.matches ⟨0, 0, .FOLLOWING_MAJOR_MINOR⟩ (rM, rm) = true
          ↔ (tupLt (0, 0) (rM, rm) ∨ (rM, rm) = (0, 0))) := by
  intro major minor rmajor rminor
  refine ⟨?_, ?_, ?_, by decide, by decide, by decide, by decide, ?_⟩
  · simp only [RESTVersion.matches, RESTVersionMatch.FOLLOWING_MINOR]
    constructor
    · intro h
      by_cases h1 : rmajor ≠ major
      · simp [h1] at h
      · push_neg at h1
        subst h1
        by_cases h2 : rminor < minor
        · simp [h2] at h
        · exact ⟨rfl, by omega⟩
    · rintro ⟨rfl, h2⟩
      simp [show ¬ rminor < minor by omega]
  · simp only [RESTVersion.matches, RESTVersionMatch.FOLLOWING_MAJOR_MINOR]
    constructor
    · intro h
      by_cases h1 : rmajor < major
      · simp [h1] at h
      · by_cases h2 : rmajor = major ∧ rminor < minor
        · simp [h1, h2] at h
        · omega
    · intro h
      have h1 : ¬ rmajor < major := by omega
      have h2 : ¬ (rmajor = major ∧ rminor < minor) := by omega
      simp [h1, h2]
  · simp only [RESTVersion.matches, RESTVersionMatch.EQUAL, RESTVersion.number]
    constructor
    · intro h
      by_cases h1 : (major, minor) ≠ (rmajor, rminor)
      · simp [h1] at h
      · push_neg at h1
        simp [Prod.ext_iff] at h1 ⊢
        exact ⟨h1.1.symm, h1.2.symm⟩
    · intro h
      simp [Prod.ext_iff] at h
      simp [Prod.ext_iff, h.1, h.2]
  · intro rM rm
    simp only [RESTVersion.matches, RESTVersionMatch.FOLLOWING_MAJOR_MINOR, tupLt, Prod.ext_iff]
    constructor
    · intro h
      by_cases h1 : rM < 0
      · simp [h1] at h
      · by_cases h2 : rM = 0 ∧ rm < 0
        · simp [h1, h2] at h
        · simp at h2 ⊢
          omega
    · intro h
      have h1 : ¬ rM < (0:Int) := by omega
      have h2 : ¬ (rM = 0 ∧ rm < (0:Int)) := by omega
      simp [h1, h2]

/-! ## Registration (`RESTRoute.get_version_route` and
`RESTRouteVersion.register_method_route`) -/

/-- One registration step for a single path.  The version-routes dict of a
`RESTRoute` maps `RESTVersion` keys to buckets; a bucket's `method_routes`
dict maps the HTTP method name to the registered handler.
`RESTRoute.get_version_route` reuses the existing bucket when the version key
is present, else a fresh `RESTRouteVersion` inserts itself into
`version_routes`; `register_method_route` then (re)binds the method slot. -/
def registerMethodRoute {H : Type} (d : List (RESTVersion × List (String × H)))
    (version : RESTVersion) (method : String) (handler : H) :
    List (RESTVersion × List (String × H)) :=
  match dictLookup d version with
  | some bucket => dictInsert d version (dictInsert bucket method handler)
  | none => dictInsert d version (dictInsert [] method handler)

lemma hasKey_iff_mem_keys {κ β : Type} [DecidableEq κ] (d : List (κ × β)) (k : κ) :
    hasKey d k = true ↔ k ∈ d.map Prod.fst := by
  simp [hasKey, List.any_eq_true, List.mem_map]

lemma keys_dictInsert_of_hasKey {κ β : Type} [DecidableEq κ]
    {d : List (κ × β)} {k : κ} (v : β) (h : hasKey d k = true) :
    (dictInsert d k v).map Prod.fst = d.map Prod.fst := by
  unfold dictInsert
  rw [if_pos h, List.map_map]
  apply List.map_congr_left
  intro p _
  by_cases hpk : p.1 = k
  · simp [Function.comp, hpk]
  · simp [Function.comp, hpk]

lemma keys_dictInsert_of_not_hasKey {κ β : Type} [DecidableEq κ]
    {d : List (κ × β)} {k : κ} (v : β) (h : hasKey d k = false) :
    (dictInsert d k v).map Prod.fst = d.map Prod.fst ++ [k] := by
  unfold dictInsert
  rw [if_neg (by simp [h]), List.map_append]
  rfl

lemma dictLookup_map_update {κ β : Type} [DecidableEq κ] (d : List (κ × β)) (k : κ) (v : β) :
    dictLookup (d.map (fun p => if p.1 = k then (k, v) else p)) k
      = if hasKey d k then some v else none := by
  induction d with
  | nil => simp [dictLookup, hasKey]
  | cons p rest ih =>
    by_cases hpk : p.1 = k
    · simp [dictLookup, hasKey, hpk]
    · simp only [List.map_cons, if_neg hpk, hasKey, List.any_cons]
      rw [show dictLookup (p :: rest.map (fun q => if q.1 = k then (k, v) else q)) k
            = dictLookup (rest.map (fun q => if q.1 = k then (k, v) else q)) k by
          simp [dictLookup, hpk]]
      rw [ih]
      have hd : (decide (p.1 = k)) = false := decide_eq_false hpk
      simp only [hd, Bool.false_or]
      rfl

lemma dictLookup_append_single {κ β : Type} [DecidableEq κ]
    {d : List (κ × β)} {k : κ} (v : β) (h : hasKey d k = false) :
    dictLookup (d ++ [(k, v)]) k = some v := by
  induction d with
  | nil => simp [dictLookup]
  | cons p rest ih =>
    simp only [hasKey, List.any_cons, Bool.or_eq_false_iff] at h
    have hpk : ¬ p.1 = k := by
      intro hk
      simp [hk] at h
    simp only [List.cons_append, dictLookup, if_neg hpk]
    exact ih (by simp [hasKey, h.2])

lemma dictLookup_dictInsert_self {κ β : Type} [DecidableEq κ]
    (d : List (κ × β)) (k : κ) (v : β) :
    dictLookup (dictInsert d k v) k = some v := by
  unfold dictInsert
  by_cases h : hasKey d k = true
  · rw [if_pos h, dictLookup_map_update, if_pos h]
  · have hf : hasKey d k = false := by
      simpa using h
    rw [if_neg (by simp [hf])]
    exact dictLookup_append_single v hf

lemma dictLookup_eq_none_iff {κ β : Type} [DecidableEq κ]
    (d : List (κ × β)) (k : κ) :
    dictLookup d k = none ↔ hasKey d k = false := by
  induction d with
  | nil => simp [dictLookup, hasKey]
  | cons p rest ih =>
    by_cases hpk : p.1 = k
    · simp [dictLookup, hasKey, hpk]
    · simp [dictLookup, hasKey, hpk] at ih ⊢
      exact ih

lemma keys_nodup_dictInsert {κ β : Type} [DecidableEq κ]
    {d : List (κ × β)} (k : κ) (v : β) (h : (d.map Prod.fst).Nodup) :
    ((dictInsert d k v).map Prod.fst).Nodup := by
  by_cases hk : hasKey d k = true
  · rw [keys_dictInsert_of_hasKey v hk]
    exact h
  · have hf : hasKey d k = false := by simpa using hk
    rw [keys_dictInsert_of_not_hasKey v hf]
    have hnotmem : k ∉ d.map Prod.fst := by
      intro hmem
      exact hk ((hasKey_iff_mem_keys d k).mpr hmem)
    exact List.Nodup.append h (List.nodup_singleton k)
      (by simpa [List.disjoint_singleton] using hnotmem)

lemma mem_keys_of_dictLookup_some {κ β : Type} [DecidableEq κ]
    {d : List (κ × β)} {k : κ} {b : β} (h : dictLookup d k = some b) :
    k ∈ d.map Prod.fst := by
  by_contra hmem
  have hf : hasKey d k = false := by
    cases hk : hasKey d k
    · rfl
    · exact absurd ((hasKey_iff_mem_keys d k).mp hk) hmem
  rw [(dictLookup_eq_none_iff d k).mpr hf] at h
  exact Option.noConfusion h

lemma registerMethodRoute_lookup_self {H : Type}
    (d : List (RESTVersion × List (String × H))) (v : RESTVersion)
    (m : String) (h : H) :
    ∃ bucket, dictLookup (registerMethodRoute d v m h) v = some bucket ∧
      dictLookup bucket m = some h := by
  unfold registerMethodRoute
  cases hl : dictLookup d v with
  | some b =>
    exact ⟨dictInsert b m h, dictLookup_dictInsert_self _ _ _,
      dictLookup_dictInsert_self _ _ _⟩
  | none =>
    exact ⟨dictInsert [] m h, dictLookup_dictInsert_self _ _ _,
      dictLookup_dictInsert_self _ _ _⟩

lemma registerMethodRoute_keys_nodup {H : Type}
    {d : List (RESTVersion × List (String × H))} (v : RESTVersion)
    (m : String) (h : H) (hnodup : (d.map Prod.fst).Nodup) :
    ((registerMethodRoute d v m h).map Prod.fst).Nodup := by
  unfold registerMethodRoute
  cases dictLookup d v
  · exact keys_nodup_dictInsert v _ hnodup
  · exact keys_nodup_dictInsert v _ hnodup

/-- The route table of one path after registering two GET handlers whose
versions share the number (1,0) but carry different match callables
(`FOLLOWING_MINOR` vs `EQUAL`). -/
def C7_table : List (RESTVersion × List (String × Nat)) :=
  registerMethodRoute
    (registerMethodRoute [] ⟨1, 0, .FOLLOWING_MINOR⟩ "GET" 1)
    ⟨1, 0, .EQUAL⟩ "GET" 2

/-- C7 counterexample: two registrations with identical (major, minor) = (1,0)
but different match policies DO coexist — the table ends with two distinct
VersionBuckets whose key number is (1,0) — and resolving version (1,0)
returns the bucket of the EARLIER registration (handler 1), not the later
one, because `RESTVersion.__hash__` covers `(number, match)` while `__eq__`
covers only `number`, so the keys occupy distinct dict slots. -/
theorem C7_counterexample :
    List.countP (fun p => decide (p.1.number = (1, 0))) C7_table = 2 ∧
    find_matching_version_route C7_table (1, 0) = some [("GET", 1)] := by
  decide

/-- C7 amended: replacement happens per full dict key — identical
`(major, minor)` AND identical match policy.  Re-registering the same
(version, method) key keeps the table's keys distinct, leaves exactly one
bucket for that version key, and that bucket's method slot holds the later
handler. -/
theorem C7_register_replaces_same_key {H : Type}
    (d : List (RESTVersion × List (String × H))) (v : RESTVersion)
    (m : String) (h1 h2 : H) (hnodup : (d.map Prod.fst).Nodup) :
    ((registerMethodRoute (registerMethodRoute d v m h1) v m h2).map Prod.fst).Nodup ∧
    ((registerMethodRoute (registerMethodRoute d v m h1) v m h2).map Prod.fst).count v = 1 ∧
    ∃ bucket,
      dictLookup (registerMethodRoute (registerMethodRoute d v m h1) v m h2) v
        = some bucket ∧
      dictLookup bucket m = some h2 := by
  have hn1 := registerMethodRoute_keys_nodup v m h1 hnodup
  have hn2 := registerMethodRoute_keys_nodup v m h2 hn1
  obtain ⟨bucket, hb, hbm⟩ :=
    registerMethodRoute_lookup_self (registerMethodRoute d v m h1) v m h2
  exact ⟨hn2, List.count_eq_one_of_mem hn2 (mem_keys_of_dictLookup_some hb),
    bucket, hb, hbm⟩

/-- Witness for the amended C7: re-registering GET at version
(1,0, FOLLOWING_MINOR) on a table that already holds an unrelated version. -/
theorem C7_register_replaces_same_key_witness :
    ((registerMethodRoute (registerMethodRoute
        [((⟨2, 0, .EQUAL⟩ : RESTVersion), [("GET", 7)])]
        ⟨1, 0, .FOLLOWING_MINOR⟩ "GET" 1) ⟨1, 0, .FOLLOWING_MINOR⟩ "GET" 2).map
          Prod.fst).Nodup ∧
    ((registerMethodRoute (registerMethodRoute
        [((⟨2, 0, .EQUAL⟩ : RESTVersion), [("GET", 7)])]
        ⟨1, 0, .FOLLOWING_MINOR⟩ "GET" 1) ⟨1, 0, .FOLLOWING_MINOR⟩ "GET" 2).map
          Prod.fst).count ⟨1, 0, .FOLLOWING_MINOR⟩ = 1 ∧
    ∃ bucket,
      dictLookup (registerMethodRoute (registerMethodRoute
        [((⟨2, 0, .EQUAL⟩ : RESTVersion), [("GET", 7)])]
        ⟨1, 0, .FOLLOWING_MINOR⟩ "GET" 1) ⟨1, 0, .FOLLOWING_MINOR⟩ "GET" 2)
        ⟨1, 0, .FOLLOWING_MINOR⟩ = some bucket ∧
      dictLookup bucket "GET" = some 2 :=
  C7_register_replaces_same_key
    [((⟨2, 0, .EQUAL⟩ : RESTVersion), [("GET", 7)])]
    ⟨1, 0, .FOLLOWING_MINOR⟩ "GET" 1 2 (by decide)

/-! ## `RESTVersion.__init__` (construction from a literal)

Python floats are modelled as rational numbers.  The two uses of Python
`round` in the constructor are pure equality tests (`round(number, 2) !=
number` and `round(minor) != minor`), and any rounding to a fixed grid fixes
exactly the grid points, so the half-to-even tie-break of Python's `round`
is irrelevant here and Mathlib's `round` is used. -/

/-- Python `int(x)` on a rational: truncation toward zero. -/
def pyInt (q : ℚ) : Int := if 0 ≤ q then ⌊q⌋ else ⌈q⌉

/-- Python `round(x)` to an integer (see the section comment on ties). -/
def pyRoundInt (q : ℚ) : Int := round q

/-- Python `round(x, 2)`: rounding to 2 fractional decimal digits. -/
def pyRound2 (q : ℚ) : ℚ := ((round (q * 100) : ℤ) : ℚ) / 100

/-- The float branch of `RESTVersion.__init__` in `src/rest.py`: reject a
number with more than 2 decimal places (`InvalidRouteError`, modelled as the
error message), else truncate to get `major`, recover `minor` from the
fractional part (scaling once more when one decimal digit did not suffice),
and truncate it. -/
def RESTVersion_init_float (number : ℚ) : Except String (Int × Int) :=
  if pyRound2 number ≠ number then
    Except.error "Version number may has only 2 decimal places"
  else
    let major := pyInt number
    let minor0 : ℚ := (number - (major : ℚ)) * 10
    let minor1 : ℚ := if ((pyRoundInt minor0 : ℤ) : ℚ) ≠ minor0 then minor0 * 10 else minor0
    Except.ok (major, pyInt minor1)

/-- The literal forms accepted by `RESTVersion.__init__`: a float or a tuple
of two integers (anything else raises before reaching either branch). -/
inductive VersionLiteral where
  | flt (number : ℚ)
  | tup (number : Int × Int)

/-- `RESTVersion.__init__` on the accepted literal forms: the float branch
validates decimal places; the tuple branch unpacks with NO validation. -/
def RESTVersion_init : VersionLiteral → Except String (Int × Int)
  | .flt q => RESTVersion_init_float q
  | .tup p => Except.ok p

lemma pyRound2_eq_self_iff (q : ℚ) : pyRound2 q = q ↔ (100 * q).den = 1 := by
  unfold pyRound2
  constructor
  · intro h
    have h100 : ((round (q * 100) : ℤ) : ℚ) = 100 * q := by
      have := congrArg (fun x : ℚ => x * 100) h
      simp only [div_mul_cancel₀ _ (by norm_num : (100 : ℚ) ≠ 0)] at this
      rw [this]
      ring
    rw [← h100]
    exact Rat.den_intCast _
  · intro h
    have hq : (((100 * q).num : ℤ) : ℚ) = 100 * q := (Rat.den_eq_one_iff _).mp h
    have hmul : q * 100 = (((100 * q).num : ℤ) : ℚ) := by
      rw [hq]
      ring
    rw [hmul, round_intCast, hq]
    field_simp

/-- C8: a float version literal with more than 2 fractional decimal digits
(its value is not an integer multiple of 1/100) fails at construction —
hence at registration time, fail-fast — with the InvalidRouteError message,
while a float value with at most 2 fractional decimal digits constructs
successfully. -/
theorem C8_float_decimal_places (q : ℚ) :
    ((100 * q).den ≠ 1 →
      RESTVersion_init_float q
        = Except.error "Version number may has only 2 decimal places") ∧
    ((100 * q).den = 1 →
      ∃ mm : Int × Int, RESTVersion_init_float q = Except.ok mm) := by
  constructor
  · intro h
    unfold RESTVersion_init_float
    rw [if_pos (fun heq => h ((pyRound2_eq_self_iff q).mp heq))]
  · intro h
    unfold RESTVersion_init_float
    rw [if_neg (fun hne => hne ((pyRound2_eq_self_iff q).mpr h))]
    exact ⟨_, rfl⟩

/-- Witness for C8: 1.234 (three decimals) is rejected, 1.23 is accepted. -/
theorem C8_float_decimal_places_witness :
    RESTVersion_init_float (1234 / 1000 : ℚ)
      = Except.error "Version number may has only 2 decimal places" ∧
    ∃ mm : Int × Int, RESTVersion_init_float (123 / 100 : ℚ) = Except.ok mm :=
  ⟨(C8_float_decimal_places (1234 / 1000 : ℚ)).1 (by norm_num),
   (C8_float_decimal_places (123 / 100 : ℚ)).2 (by norm_num)⟩

/-- C9 counterexample: the tuple branch of `RESTVersion.__init__` performs no
range validation, so a VersionSpec with minor = 250 ∉ [0, 99] is constructed
successfully. -/
theorem C9_counterexample :
    RESTVersion_init (VersionLiteral.tup (1, 250)) = Except.ok (1, 250) ∧
    ¬ ((250 : Int) ≤ 99) :=
  ⟨rfl, by decide⟩

lemma pyInt_bounds {r : ℚ} (h0 : 0 ≤ r) (h100 : r < 100) :
    0 ≤ pyInt r ∧ pyInt r ≤ 99 := by
  unfold pyInt
  rw [if_pos h0]
  refine ⟨Int.floor_nonneg.mpr h0, ?_⟩
  have hlt : ⌊r⌋ < 100 := by
    rw [Int.floor_lt]
    exact_mod_cast h100
  omega

/-- C9 amended: a VersionSpec successfully constructed from a NONNEGATIVE
float literal satisfies minor ∈ [0, 99]; the tuple constructor (see the
counterexample) validates nothing, and negative floats can escape the range
as well, so the invariant holds only on this branch. -/
theorem C9_float_minor_range (q : ℚ) (hq : 0 ≤ q) (mj mn : Int)
    (h : RESTVersion_init_float q = Except.ok (mj, mn)) :
    0 ≤ mn ∧ mn ≤ 99 := by
  have hfl : ((⌊q⌋ : Int) : ℚ) ≤ q := Int.floor_le q
  have hfu : q < ⌊q⌋ + 1 := Int.lt_floor_add_one q
  have hpy : pyInt q = ⌊q⌋ := if_pos hq
  have h0 : 0 ≤ (q - ((pyInt q : Int) : ℚ)) * 10 := by
    rw [hpy]
    nlinarith
  have h10 : (q - ((pyInt q : Int) : ℚ)) * 10 < 10 := by
    rw [hpy]
    nlinarith
  unfold RESTVersion_init_float at h
  by_cases hg : pyRound2 q ≠ q
  · rw [if_pos hg] at h
    exact absurd h (by simp)
  · rw [if_neg hg] at h
    simp only [Except.ok.injEq, Prod.mk.injEq] at h
    obtain ⟨hmj, hmn⟩ := h
    rw [← hmn]
    split
    · exact pyInt_bounds (by nlinarith) (by nlinarith)
    · exact pyInt_bounds h0 (by nlinarith)

/-- Witness for the amended C9 at the float literal 1.5 = 3/2, which
constructs (major, minor) = (1, 5). -/
theorem C9_float_minor_range_witness : 0 ≤ (5 : Int) ∧ (5 : Int) ≤ 99 :=
  C9_float_minor_range (3/2 : ℚ) (by norm_num) 1 5 (by
    norm_num [RESTVersion_init_float, pyRound2, pyRoundInt, pyInt, round_eq,
      Int.floor_eq_iff])

/-! ## Authentication (`src/auth.py`)

`HybridAuth` holds a tuple of authentication CLASSES; per `authenticate`
call it instantiates `auth(self.rest_route)` and calls the instance.  An
instance's behaviour (`authenticate`, `response`, class-level
`handled_exceptions`) is fully determined by its class, so a class is
modelled by a `SubAuth` record of those behaviours and instantiation is the
identity.  The mutable fields (`auth_used`, `rest_route`) are modelled by
explicit state passing. -/

/-- Exceptions a sub-policy's `authenticate` can raise: only
`AuthenticationError` is caught by the Hybrid loop; anything else
propagates. -/
inductive AuthExc where
  | authenticationError
  | otherExc
deriving DecidableEq, Repr

/-- One concrete authentication class as `HybridAuth` consumes it.  `Req`
and `Resp` abstract Django's request and response objects. -/
structure SubAuth (Req Resp : Type) where
  authenticate : Req → Except AuthExc Unit
  response : Req → Resp → Resp
  handled_exceptions : List String

inductive HybridOperator where
  | orOp
  | andOp
deriving DecidableEq, Repr

/-- `HybridAuth` state: the configured sub-policies and operator, the
remembered `auth_used` (initially `None`), and the `rest_route` bound by
`__call__`. -/
structure HybridAuth (Req Resp Route : Type) where
  auth_methods : List (SubAuth Req Resp)
  operator : HybridOperator
  auth_used : Option (SubAuth Req Resp)
  rest_route : Option Route

/-- What `HybridAuth.authenticate` can raise. -/
inductive HybridExc where
  | authenticationError
  | notImplementedError
  | otherExc
deriving DecidableEq, Repr

/-- The `for auth in self.auth_methods` loop of the `or` branch: the first
sub-policy whose `authenticate` does not raise is stored into `auth_used`
and the method returns; an `AuthenticationError` moves on to the next
sub-policy; any other exception propagates uncaught.  A completed loop
falls through to `raise AuthenticationError` with `auth_used` untouched. -/
def hybridOrLoop {Req Resp Route : Type} (h : HybridAuth Req Resp Route)
    (request : Req) :
    List (SubAuth Req Resp) → Except HybridExc Unit × HybridAuth Req Resp Route
  | [] => (Except.error HybridExc.authenticationError, h)
  | a :: rest =>
    match a.authenticate request with
    | Except.ok _ => (Except.ok (), { h with auth_used := some a })
    | Except.error AuthExc.authenticationError => hybridOrLoop h request rest
    | Except.error AuthExc.otherExc => (Except.error HybridExc.otherExc, h)

/-- `HybridAuth.authenticate`: the `or` branch runs the loop; the `and`
branch raises `NotImplementedError` before reaching the final raise. -/
def HybridAuth.authenticate {Req Resp Route : Type} (h : HybridAuth Req Resp Route)
    (request : Req) : Except HybridExc Unit × HybridAuth Req Resp Route :=
  match h.operator with
  | .orOp => hybridOrLoop h request h.auth_methods
  | .andOp => (Except.error HybridExc.notImplementedError, h)

/-- `HybridAuth.handled_exceptions` property: the empty tuple while no
sub-policy has succeeded (`if not self.auth_used`), else the remembered
policy's class-level tuple. -/
def HybridAuth.handled_exceptions {Req Resp Route : Type}
    (h : HybridAuth Req Resp Route) : List String :=
  match h.auth_used with
  | none => []
  | some a => a.handled_exceptions

/-- `HybridAuth.response`: return the response unchanged while no sub-policy
has succeeded, else delegate to the remembered policy. -/
def HybridAuth.response {Req Resp Route : Type} (h : HybridAuth Req Resp Route)
    (request : Req) (resp : Resp) : Resp :=
  match h.auth_used with
  | none => resp
  | some a => a.response request resp

/-- `HybridAuth.__call__(rest_route)`: store the route and `return self` —
the same instance, with `auth_used` untouched. -/
def HybridAuth.call {Req Resp Route : Type} (h : HybridAuth Req Resp Route)
    (route : Route) : HybridAuth Req Resp Route :=
  { h with rest_route := some route }

lemma hybridOrLoop_all_fail {Req Resp Route : Type} (h : HybridAuth Req Resp Route)
    (request : Req) (l : List (SubAuth Req Resp))
    (hall : ∀ a ∈ l, a.authenticate request = Except.error AuthExc.authenticationError) :
    hybridOrLoop h request l = (Except.error HybridExc.authenticationError, h) := by
  induction l with
  | nil => rfl
  | cons a rest ih =>
    have ha := hall a (List.mem_cons_self a rest)
    rw [hybridOrLoop, ha]
    exact ih (fun b hb => hall b (List.mem_cons_of_mem a hb))

lemma hybridOrLoop_skip {Req Resp Route : Type} (h : HybridAuth Req Resp Route)
    (request : Req) (pre rest : List (SubAuth Req Resp))
    (hpre : ∀ b ∈ pre, b.authenticate request = Except.error AuthExc.authenticationError) :
    hybridOrLoop h request (pre ++ rest) = hybridOrLoop h request rest := by
  induction pre with
  | nil => rfl
  | cons b pre' ih =>
    have hb := hpre b (List.mem_cons_self b pre')
    rw [List.cons_append, hybridOrLoop, hb]
    exact ih (fun c hc => hpre c (List.mem_cons_of_mem b hc))

/-- C3: for a Hybrid OR policy, sub-policies are tried in declared order;
given a decomposition `pre ++ a :: post` of the policy list where every `pre`
member fails with AuthenticationError and `a` succeeds, `authenticate`
succeeds, remembers `a` as the active policy, and the subsequent response
postprocessing applies `a`'s response behaviour; if every sub-policy fails
with AuthenticationError, the Hybrid's own `authenticate` fails with
AuthenticationError. -/
theorem C3_hybrid_or_first_success {Req Resp Route : Type}
    (h : HybridAuth Req Resp Route) (request : Req)
    (hop : h.operator = .orOp) :
    (∀ pre a post, h.auth_methods = pre ++ a :: post →
      (∀ b ∈ pre, b.authenticate request = Except.error AuthExc.authenticationError) →
      a.authenticate request = Except.ok () →
      (h.authenticate request).1 = Except.ok () ∧
      (h.authenticate request).2.auth_used = some a ∧
      ∀ (r2 : Req) (resp : Resp),
        (h.authenticate request).2.response r2 resp = a.response r2 resp) ∧
    ((∀ a ∈ h.auth_methods,
        a.authenticate request = Except.error AuthExc.authenticationError) →
      h.authenticate request = (Except.error HybridExc.authenticationError, h)) := by
  constructor
  · intro pre a post hdec hpre hok
    have hrun : h.authenticate request = (Except.ok (), { h with auth_used := some a }) := by
      unfold HybridAuth.authenticate
      rw [hop, hdec, hybridOrLoop_skip h request pre _ hpre, hybridOrLoop, hok]
      simp [hdec, hop]
    rw [hrun]
    exact ⟨rfl, rfl, fun r2 resp => by simp [HybridAuth.response]⟩
  · intro hall
    unfold HybridAuth.authenticate
    rw [hop]
    exact hybridOrLoop_all_fail h request h.auth_methods hall

/-- A sub-policy whose authenticate always raises AuthenticationError. -/
def subFailA : SubAuth Nat Nat where
  authenticate := fun _ => Except.error AuthExc.authenticationError
  response := fun _ r => r + 100
  handled_exceptions := ["AErr"]

/-- A sub-policy whose authenticate always succeeds. -/
def subOkB : SubAuth Nat Nat where
  authenticate := fun _ => Except.ok ()
  response := fun _ r => r + 1
  handled_exceptions := ["BErr"]

/-- Hybrid(OR, [A, B]) with A failing and B succeeding. -/
def hybridAB : HybridAuth Nat Nat Nat where
  auth_methods := [subFailA, subOkB]
  operator := .orOp
  auth_used := none
  rest_route := none

/-- Witness for C3: in Hybrid(OR, [A, B]) with A failing and B succeeding,
authenticate succeeds, B becomes the active policy, and postprocessing
applies B's response behaviour. -/
theorem C3_hybrid_or_first_success_witness :
    (hybridAB.authenticate 0).1 = Except.ok () ∧
    (hybridAB.authenticate 0).2.auth_used = some subOkB ∧
    (hybridAB.authenticate 0).2.response 0 17 = subOkB.response 0 17 := by
  have hc := (C3_hybrid_or_first_success hybridAB 0 rfl).1 [subFailA] subOkB [] rfl
    (by
      intro b hb
      rw [List.mem_singleton] at hb
      subst hb
      rfl)
    rfl
  exact ⟨hc.1, hc.2.1, hc.2.2 0 17⟩

/-- C10: when every sub-policy of a Hybrid OR fails with
AuthenticationError, the call raises AuthenticationError and the previously
remembered active policy B stays in place: `handled_exceptions` still
returns B's tuple and `response` still applies B's postprocessing; moreover
`__call__` (binding to an endpoint) returns the same instance — same
sub-policies, operator, and remembered `auth_used`. -/
theorem C10_hybrid_failed_auth_keeps_auth_used {Req Resp Route : Type}
    (h : HybridAuth Req Resp Route) (request : Req) (B : SubAuth Req Resp)
    (route : Route) (hop : h.operator = .orOp) (hused : h.auth_used = some B)
    (hall : ∀ a ∈ h.auth_methods,
      a.authenticate request = Except.error AuthExc.authenticationError) :
    (h.authenticate request).1 = Except.error HybridExc.authenticationError ∧
    (h.authenticate request).2.auth_used = some B ∧
    (h.authenticate request).2.handled_exceptions = B.handled_exceptions ∧
    (∀ (r2 : Req) (resp : Resp),
      (h.authenticate request).2.response r2 resp = B.response r2 resp) ∧
    (h.call route).auth_used = h.auth_used ∧
    (h.call route).auth_methods = h.auth_methods ∧
    (h.call route).operator = h.operator := by
  have hrun : h.authenticate request = (Except.error HybridExc.authenticationError, h) := by
    unfold HybridAuth.authenticate
    rw [hop]
    exact hybridOrLoop_all_fail h request h.auth_methods hall
  rw [hrun]
  refine ⟨rfl, hused, ?_, ?_, rfl, rfl, rfl⟩
  · simp [HybridAuth.handled_exceptions, hused]
  · intro r2 resp
    simp [HybridAuth.response, hused]

/-- A Hybrid that already remembers B as active but whose (single)
sub-policy fails. -/
def hybridUsedB : HybridAuth Nat Nat Nat where
  auth_methods := [subFailA]
  operator := .orOp
  auth_used := some subOkB
  rest_route := none

/-- Witness for C10 on a concrete Hybrid whose remembered policy is B. -/
theorem C10_hybrid_failed_auth_keeps_auth_used_witness :
    (hybridUsedB.authenticate 5).1 = Except.error HybridExc.authenticationError ∧
    (hybridUsedB.authenticate 5).2.auth_used = some subOkB ∧
    (hybridUsedB.authenticate 5).2.handled_exceptions = subOkB.handled_exceptions ∧
    (hybridUsedB.authenticate 5).2.response 0 17 = subOkB.response 0 17 ∧
    (hybridUsedB.call 3).auth_used = hybridUsedB.auth_used := by
  have hc := C10_hybrid_failed_auth_keeps_auth_used hybridUsedB 5 subOkB 3 rfl rfl
    (by
      intro a ha
      have ha2 : a = subFailA := by
        simpa [hybridUsedB] using ha
      subst ha2
      rfl)
  exact ⟨hc.1, hc.2.1, hc.2.2.1, hc.2.2.2.1 0 17, hc.2.2.2.2.1⟩

/-! ## Dispatch pipeline (`RESTRouteVersionMethod.__call__`)

The wrapper around the route function: authenticate, then body handling by
method, optional cache validator for GET, handler invocation, `data`
envelope, `JsonResponse`, ETag/Last-Modified copy, auth postprocess.  The
JSON codec itself is out of scope for the core, so `json.loads` is a
parameter `parse` of the dispatcher (`none` models `JSONDecodeError`).
Raised exceptions become `Except.error`; the second result component records
whether `self.route_func` was invoked. -/

/-- Minimal JSON value type for bodies and results. -/
inductive JValue where
  | null
  | bool (b : Bool)
  | num (n : Int)
  | str (s : String)
  | obj (fields : List (String × JValue))

/-- A request as `__call__` inspects it: `request.method` and the raw
`request.body` (Python's `if request.body:` truthiness is non-emptiness). -/
structure Request where
  method : String
  body : String

/-- The `JsonResponse` assembled by the wrapper, with the optional
`ETag` / `Last-Modified` headers it may set. -/
structure Response where
  status : Int
  body : JValue
  etag : Option String
  lastModified : Option String

/-- What a cache validator returns: a response object carrying optional
`ETag` / `Last-Modified` headers.  A validator returning a falsy value is
modelled as `none` (no headers are copied then). -/
structure CacheResp where
  etag : Option String
  lastModified : Option String

/-- The request-time error classes of `src/exceptions.py` raised inside
`__call__` (plus whatever the auth object raises). -/
inductive DispatchError where
  | authenticationError
  | requestError (msg : String)
  | encodingError
deriving DecidableEq, Repr

/-- `status_code` class attributes from `src/exceptions.py`. -/
def DispatchError.status_code : DispatchError → Int
  | .authenticationError => 401
  | .requestError _ => 400
  | .encodingError => 400

/-- One registered `RESTRouteVersionMethod` as `__call__` uses it:
`route_func` (receiving the parsed `request.JSON` for non-GET requests),
the bound auth object's `authenticate` and `response`, the
`response_status`, and the effective cache validator (either the `cache`
argument or the one attached later through the decorator's `cache` method,
already wrapped with `func_owner` when needed). -/
structure Endpoint where
  route_func : Request → Option JValue → JValue
  authenticate : Request → Except DispatchError Unit
  authResponse : Request → Response → Response
  response_status : Int
  cache : Option (Request → Option CacheResp)

/-- `isinstance(route_result, dict) and 'data' in route_result`. -/
def hasDataKey : JValue → Bool
  | JValue.obj fields => fields.any (fun f => f.1 == "data")
  | _ => false

/-- The tail of `__call__` from `route_result = self.route_func(...)` to the
`JsonResponse` with copied cache headers: invoke the handler, wrap the
result in a `data` envelope unless it already is a dict with a `data` key,
and build the response with the endpoint's status. -/
def runHandler (ep : Endpoint) (request : Request) (json : Option JValue)
    (cache_response : Option CacheResp) : Response :=
  let route_result := ep.route_func request json
  let wrapped :=
    if hasDataKey route_result then route_result
    else JValue.obj [("data", route_result)]
  { status := ep.response_status
    body := wrapped
    etag :=
      match cache_response with
      | some cr => cr.etag
      | none => none
    lastModified :=
      match cache_response with
      | some cr => cr.lastModified
      | none => none }

/-- `RESTRouteVersionMethod.__call__` from `src/rest.py`. -/
def dispatch (parse : String → Option JValue) (ep : Endpoint)
    (request : Request) : Except DispatchError Response × Bool :=
  match ep.authenticate request with
  | Except.error e => (Except.error e, false)
  | Except.ok _ =>
    if request.method ≠ "GET" then
      match (if request.body ≠ "" then parse request.body
             else some (JValue.obj [])) with
      | none => (Except.error DispatchError.encodingError, false)
      | some j =>
        (Except.ok (ep.authResponse request (runHandler ep request (some j) none)),
         true)
    else if request.body ≠ "" then
      (Except.error
        (DispatchError.requestError "A GET request may not have a request body"),
       false)
    else
      let cache_response :=
        match ep.cache with
        | some c => c request
        | none => none
      (Except.ok (ep.authResponse request (runHandler ep request none cache_response)),
       true)

/-- C5: a GET request with a non-empty body fails with
`RequestError("A GET request may not have a request body")`, status 400,
for every handler, parser, auth-postprocess and cache configuration, once
authentication passed; and the handler is never invoked for such a request
even when authentication fails. -/
theorem C5_get_with_body_request_error (parse : String → Option JValue)
    (ep : Endpoint) (request : Request)
    (hm : request.method = "GET") (hb : request.body ≠ "") :
    (ep.authenticate request = Except.ok () →
      dispatch parse ep request
        = (Except.error
            (DispatchError.requestError "A GET request may not have a request body"),
           false) ∧
      DispatchError.status_code
        (DispatchError.requestError "A GET request may not have a request body")
        = 400) ∧
    (dispatch parse ep request).2 = false := by
  have hmm : ¬ request.method ≠ "GET" := by simp [hm]
  constructor
  · intro hauth
    refine ⟨?_, rfl⟩
    unfold dispatch
    rw [hauth]
    simp only [hmm, if_false, if_neg hmm, hb, if_pos hb]
  · unfold dispatch
    cases hauth : ep.authenticate request with
    | error e => rfl
    | ok u =>
      simp only [if_neg hmm, if_pos hb]

/-- A plain endpoint (Public-style auth, identity postprocess, no cache). -/
def epPlain : Endpoint where
  route_func := fun _ _ => JValue.num 7
  authenticate := fun _ => Except.ok ()
  authResponse := fun _ r => r
  response_status := 200
  cache := none

/-- A parser that rejects every body (used where parsing must not matter or
must fail). -/
def parseNone : String → Option JValue := fun _ => none

/-- Witness for C5: GET with body "x" on a concrete endpoint. -/
theorem C5_get_with_body_request_error_witness :
    (dispatch parseNone epPlain { method := "GET", body := "x" }
        = (Except.error
            (DispatchError.requestError "A GET request may not have a request body"),
           false) ∧
      DispatchError.status_code
        (DispatchError.requestError "A GET request may not have a request body")
        = 400) ∧
    (dispatch parseNone epPlain { method := "GET", body := "x" }).2 = false := by
  have hc := C5_get_with_body_request_error parseNone epPlain
    { method := "GET", body := "x" } rfl (by decide)
  exact ⟨hc.1 rfl, hc.2⟩

/-- C6: on a non-GET request that passed authentication, the body is parsed
as JSON (through the abstract codec): a malformed body fails with
EncodingError, status 400, with the handler never invoked; an empty body is
not parsed at all and the handler runs with `request.JSON` set to the empty
object; a well-formed body hands the parsed value to the handler. -/
theorem C6_non_get_body_parsing (parse : String → Option JValue) (ep : Endpoint)
    (request : Request) (hm : request.method ≠ "GET")
    (hauth : ep.authenticate request = Except.ok ()) :
    (request.body ≠ "" → parse request.body = none →
      dispatch parse ep request = (Except.error DispatchError.encodingError, false) ∧
      DispatchError.status_code DispatchError.encodingError = 400) ∧
    (request.body = "" →
      dispatch parse ep request
        = (Except.ok (ep.authResponse request
            (runHandler ep request (some (JValue.obj [])) none)), true)) ∧
    (∀ j, request.body ≠ "" → parse request.body = some j →
      dispatch parse ep request
        = (Except.ok (ep.authResponse request (runHandler ep request (some j) none)),
           true)) := by
  refine ⟨?_, ?_, ?_⟩
  · intro hb hp
    refine ⟨?_, rfl⟩
    unfold dispatch
    rw [hauth]
    simp only [if_pos hm, if_pos hb, hp]
  · intro hb
    unfold dispatch
    rw [hauth]
    have hb' : ¬ request.body ≠ "" := by simp [hb]
    simp only [if_pos hm, if_neg hb']
  · intro j hb hp
    unfold dispatch
    rw [hauth]
    simp only [if_pos hm, if_pos hb, hp]

/-- Witness for C6: POST with malformed body "notjson" under the rejecting
parser, and POST with empty body. -/
theorem C6_non_get_body_parsing_witness :
    (dispatch parseNone epPlain { method := "POST", body := "notjson" }
        = (Except.error DispatchError.encodingError, false) ∧
      DispatchError.status_code DispatchError.encodingError = 400) ∧
    dispatch parseNone epPlain { method := "POST", body := "" }
      = (Except.ok (epPlain.authResponse { method := "POST", body := "" }
          (runHandler epPlain { method := "POST", body := "" }
            (some (JValue.obj [])) none)), true) := by
  have hc1 := C6_non_get_body_parsing parseNone epPlain
    { method := "POST", body := "notjson" } (by decide) rfl
  have hc2 := C6_non_get_body_parsing parseNone epPlain
    { method := "POST", body := "" } (by decide) rfl
  exact ⟨hc1.1 (by decide) rfl, hc2.2.1 rfl⟩

/-- C4 amended: for a GET request with no body that passed authentication,
the dispatcher invokes the endpoint's cache validator (when one is
configured) and copies its conditional headers (ETag / Last-Modified, when
the validator returned a truthy response) onto the handler's response — but
it never short-circuits: the handler is invoked unconditionally and the
response carries the endpoint's configured status. -/
theorem C4_get_cache_headers_no_short_circuit (parse : String → Option JValue)
    (ep : Endpoint) (request : Request) (c : Request → Option CacheResp)
    (hm : request.method = "GET") (hb : request.body = "")
    (hauth : ep.authenticate request = Except.ok ())
    (hc : ep.cache = some c) :
    dispatch parse ep request
      = (Except.ok (ep.authResponse request
          (runHandler ep request none (c request))), true) ∧
    (dispatch parse ep request).2 = true := by
  have hmm : ¬ request.method ≠ "GET" := by simp [hm]
  have hb' : ¬ request.body ≠ "" := by simp [hb]
  have hrun : dispatch parse ep request
      = (Except.ok (ep.authResponse request
          (runHandler ep request none (c request))), true) := by
    unfold dispatch
    rw [hauth]
    simp only [if_neg hmm, if_neg hb', hc]
  exact ⟨hrun, by rw [hrun]⟩

/-- A GET endpoint whose cache validator reports the resource unchanged via
a constant content fingerprint, with a handler returning the number 42. -/
def epCached : Endpoint where
  route_func := fun _ _ => JValue.num 42
  authenticate := fun _ => Except.ok ()
  authResponse := fun _ r => r
  response_status := 200
  cache := some (fun _ => some { etag := some "tag-unchanged", lastModified := none })

/-- C4 counterexample: on a GET request with no body against `epCached`,
whose validator reports the resource unchanged (it returns the current
fingerprint for every request, in particular one whose conditional headers
carry that same fingerprint), the handler IS invoked and the dispatcher
returns the full 200 response with the validator's ETag attached — there is
no "not modified" short-circuit in `__call__`. -/
theorem C4_counterexample :
    (dispatch parseNone epCached { method := "GET", body := "" }).2 = true ∧
    (dispatch parseNone epCached { method := "GET", body := "" }).1
      = Except.ok { status := 200, body := JValue.obj [("data", JValue.num 42)],
                    etag := some "tag-unchanged", lastModified := none } :=
  ⟨rfl, rfl⟩

/-- Witness for the amended C4 at the same concrete endpoint and request. -/
theorem C4_get_cache_headers_no_short_circuit_witness :
    dispatch parseNone epCached { method := "GET", body := "" }
      = (Except.ok (epCached.authResponse { method := "GET", body := "" }
          (runHandler epCached { method := "GET", body := "" } none
            (some { etag := some "tag-unchanged", lastModified := none }))), true) ∧
    (dispatch parseNone epCached { method := "GET", body := "" }).2 = true :=
  C4_get_cache_headers_no_short_circuit parseNone epCached
    { method := "GET", body := "" }
    (fun _ => some { etag := some "tag-unchanged", lastModified := none })
    rfl rfl rfl rfl
